import Mathlib

/-!
Verification of the mini-vst median-filter plugin core
(`src/median_filter/src/lib.rs` and `src/common/src/macros.rs`).

Modelling conventions:
* `f32` values held in parameter cells are modelled by `FVal`: NaN, the two
  infinities, or a finite rational. The window-size product `v * 100.0` is
  modelled faithfully: exact rational multiplication followed by `f32round`,
  a round-to-nearest-even rounding to 24-bit precision (with the subnormal
  exponent clamp and overflow to ±∞), matching IEEE 754 binary32
  multiplication. The dry/wet blend arithmetic that the claims touch
  (wet_dry equal to 0 or 1, and the blend identity) is exact in f32, so the
  audio path is modelled by exact rational arithmetic.
* Rust's saturating `as usize` cast from `f32` is `FVal.castUsize`
  (NaN and everything ≤ 0 go to 0, +∞ and huge values saturate to
  `usizeMax = 2^64 - 1`, positive finite values truncate toward zero).
* The host callback is modelled by an explicit trace of observable actions
  (`TraceEvent`): `begin_edit`, the storage write, `end_edit`.
* The sliding-window median engine (`median::heap::Filter`) is an external
  crate; it is modelled from the spec as a window-bounded list of the most
  recent samples with an exact median.
-/

namespace MiniVst

/-- Model of an `f32` value stored in a parameter cell: NaN, ±∞, or an exact
finite rational. -/
inductive FVal where
  | nan : FVal
  | inf : FVal
  | neginf : FVal
  | fin : ℚ → FVal
deriving DecidableEq

/-- `usize::MAX` on the 64-bit targets this plugin is built for. -/
def usizeMax : ℕ := 2 ^ 64 - 1

/-- Rust's saturating `f32 as usize` cast: NaN maps to 0, -∞ and non-positive
finite values map to 0, +∞ saturates to `usize::MAX`, and positive finite
values truncate toward zero, saturating at `usize::MAX`. -/
def FVal.castUsize : FVal → ℕ
  | .nan => 0
  | .neginf => 0
  | .inf => usizeMax
  | .fin q => if q ≤ 0 then 0 else min usizeMax (Int.toNat ⌊q⌋)

/-- Round a rational to the nearest integer, ties to even (the IEEE 754
default rounding of a scaled significand). -/
def roundTiesEven (x : ℚ) : ℤ :=
  if Int.fract x < 1/2 then ⌊x⌋
  else if 1/2 < Int.fract x then ⌊x⌋ + 1
  else if ⌊x⌋ % 2 = 0 then ⌊x⌋ else ⌊x⌋ + 1

/-- The binary exponent f32 rounding uses for a positive rational: ⌊log₂ q⌋
clamped below at -126 (the subnormal range shares the quantum of exponent
-126). -/
def expF32 (q : ℚ) : ℤ :=
  max (Int.log 2 q) (-126)

/-- The nearest f32 value (ties to even) of a positive rational, with
unbounded upper exponent: the significand q / 2^(e-23) is rounded to an
integer and scaled back. Overflow to ∞ is applied by the caller. -/
def f32roundPos (q : ℚ) : ℚ :=
  (roundTiesEven (q * 2 ^ (23 - expF32 q)) : ℚ) * 2 ^ (expF32 q - 23)

/-- The nearest f32 value (round to nearest, ties to even) of a rational,
with unbounded upper exponent; rounding is sign-symmetric. -/
def f32round (q : ℚ) : ℚ :=
  if q = 0 then 0
  else if 0 < q then f32roundPos q
  else -f32roundPos (-q)

/-- The source's `x * 100.0` on a stored cell value: NaN and ±∞ propagate;
a finite value is multiplied exactly and the product correctly rounded to
the nearest f32 (ties to even), overflowing to ±∞ at magnitude 2^128 —
IEEE 754 binary32 multiplication. -/
def FVal.mul100 : FVal → FVal
  | .nan => .nan
  | .inf => .inf
  | .neginf => .neginf
  | .fin q =>
    let r := f32round (q * 100)
    if r ≤ -(2 ^ 128) then .neginf
    else if (2 ^ 128 : ℚ) ≤ r then .inf
    else .fin r

/-- f32 `==` comparison: NaN compares unequal to everything (including
itself); finite values compare by numeric value. -/
def FVal.feq : FVal → FVal → Bool
  | .nan, _ => false
  | _, .nan => false
  | .inf, .inf => true
  | .inf, _ => false
  | .neginf, .neginf => true
  | .neginf, _ => false
  | .fin a, .fin b => a == b
  | .fin _, _ => false

/-- The finite payload of a stored value (0 for NaN/±∞). Used only where the
theorems separately hypothesise that the cell holds a finite value. -/
def FVal.toRat : FVal → ℚ
  | .fin q => q
  | _ => 0

/-- `RawParameters` (lib.rs): one normalized cell per descriptor row.
The `host: HostCallback` field is modelled by the event traces that the
mutating operations return. -/
structure RawParameters where
  window_size : FVal
  wet_dry : FVal
deriving DecidableEq

/-- `ParameterType` (lib.rs): one variant per descriptor row. -/
inductive ParameterType where
  | WindowSize : ParameterType
  | WetDry : ParameterType
deriving DecidableEq

/-- `TryFrom<i32> for ParameterType` generated by `impl_from_i32` from the
table rows (WetDry ↦ 0, WindowSize ↦ 1); any other index is an error. -/
def ParameterType.tryFrom (x : ℤ) : Except Unit ParameterType :=
  if x = 0 then .ok .WetDry
  else if x = 1 then .ok .WindowSize
  else .error ()

/-- `From<ParameterType> for i32` generated by `impl_into_i32`. -/
def ParameterType.toI32 : ParameterType → ℤ
  | .WetDry => 0
  | .WindowSize => 1

/-- `Display for ParameterType` generated by `impl_display` from the table's
name column. -/
def ParameterType.display : ParameterType → String
  | .WetDry => "Wet/Dry"
  | .WindowSize => "Window Size"

/-- `get_ref` generated by `impl_get_ref`: selects the storage cell for a
parameter. -/
def RawParameters.getRef (p : RawParameters) : ParameterType → FVal
  | .WindowSize => p.window_size
  | .WetDry => p.wet_dry

/-- Writing through the reference returned by `get_ref` (the
`AtomicFloat::set` call inside `RawParameters::set`). -/
def RawParameters.setRef (p : RawParameters) (t : ParameterType) (v : FVal) :
    RawParameters :=
  match t with
  | .WindowSize => { p with window_size := v }
  | .WetDry => { p with wet_dry := v }

/-- `RawParameters::get`: reads the cell for the given parameter. -/
def RawParameters.get (p : RawParameters) (t : ParameterType) : FVal :=
  p.getRef t

/-- One observable action of `RawParameters::set`: a host `begin_edit`
notification, the storage write itself, or a host `end_edit` notification. -/
inductive TraceEvent where
  | beginEdit : ℤ → TraceEvent
  | storeValue : ParameterType → FVal → TraceEvent
  | endEdit : ℤ → TraceEvent
deriving DecidableEq

/-- `RawParameters::set` (lib.rs lines 131-138): `begin_edit(parameter.into())`,
store the value, `end_edit(parameter.into())`. Returns the new storage and the
ordered trace of observable actions. -/
def RawParameters.set (p : RawParameters) (v : FVal) (t : ParameterType) :
    RawParameters × List TraceEvent :=
  (p.setRef t v,
   [.beginEdit t.toI32, .storeValue t v, .endEdit t.toI32])

/-- `RawParameters::default` generated by `impl_default` from the table's
default column: both cells start at 0.5. -/
def RawParameters.default : RawParameters :=
  { window_size := .fin (1/2), wet_dry := .fin (1/2) }

/-- The derived `Parameters` snapshot (lib.rs). -/
structure Parameters where
  window_size : ℕ
  wet_dry : FVal
deriving DecidableEq

/-- `From<&RawParameters> for Parameters` (lib.rs lines 121-128):
`window_size = ((raw.window_size.get() * 100.0) as usize).max(1)` and
`wet_dry = raw.wet_dry.get()`. -/
def Parameters.fromRaw (p : RawParameters) : Parameters :=
  { window_size := max (p.window_size.mul100.castUsize) 1
    wet_dry := p.wet_dry }

/-- Modelled from the spec: the external sliding-window median engine
(`median::heap::Filter`, spec §6). `window` is the length passed to
`Filter::new`; `buf` holds the most recent samples, oldest first, never
longer than `window`. -/
structure Filter where
  window : ℕ
  buf : List ℚ
deriving DecidableEq

/-- Modelled from the spec: `Filter::new(window_length)` constructs a cold
engine with no accumulated samples. -/
def Filter.new (n : ℕ) : Filter :=
  { window := n, buf := [] }

/-- Modelled from the spec: `consume` records a new sample, evicting the
oldest ones when the window is full. -/
def Filter.consume (f : Filter) (x : ℚ) : Filter :=
  let b := f.buf ++ [x]
  { f with buf := if f.window < b.length then b.drop (b.length - f.window) else b }

/-- Modelled from the spec: the engine's readiness query — the source's
`is_empty() != 0` guard — true once at least one sample has been consumed. -/
def Filter.isReady (f : Filter) : Bool :=
  !f.buf.isEmpty

/-- Modelled from the spec: the running median of the samples currently in
the window (midpoint of the two central order statistics when the count is
even; 0 on an empty engine, which the loop never queries). -/
def Filter.median (f : Filter) : ℚ :=
  let s := f.buf.insertionSort (· ≤ ·)
  let n := s.length
  if n % 2 = 1 then s.getD (n / 2) 0
  else (s.getD (n / 2 - 1) 0 + s.getD (n / 2) 0) / 2

/-- The filtered value the loop blends in for the sample just consumed:
the running median, or silence while the engine is not ready. -/
def Filter.filteredValue (f : Filter) : ℚ :=
  if f.isReady then f.median else 0

/-- One channel of `MedianFilter::process` (lib.rs lines 75-83 and 88-96):
for each sample in buffer order, consume it, read the guarded running
median, and blend `input * (1 - wet_dry) + filtered * wet_dry`. Returns the
final filter state and the output samples. -/
def processChannel (wd : ℚ) : Filter → List ℚ → Filter × List ℚ
  | f, [] => (f, [])
  | f, x :: xs =>
    let f1 := f.consume x
    let y := x * (1 - wd) + f1.filteredValue * wd
    let r := processChannel wd f1 xs
    (r.1, y :: r.2)

/-- The `MedianFilter` plugin state (lib.rs lines 15-20). -/
structure MedianFilter where
  params : RawParameters
  left_filter : Filter
  right_filter : Filter
  last_window_size : ℕ
deriving DecidableEq

/-- `Plugin::new` (lib.rs lines 23-30): default parameters, both channel
filters constructed at length 50, `last_window_size = 50`. -/
def MedianFilter.new : MedianFilter :=
  { params := RawParameters.default
    left_filter := Filter.new 50
    right_filter := Filter.new 50
    last_window_size := 50 }

/-- `Plugin::init` (lib.rs lines 32-35): re-reads the derived snapshot and
records its `window_size`, leaving the filters untouched. -/
def MedianFilter.init (m : MedianFilter) : MedianFilter :=
  { m with last_window_size := (Parameters.fromRaw m.params).window_size }

/-- `MedianFilter::reset_if_changed` (lib.rs lines 106-113): when the derived
`window_size` differs from `last_window_size`, both filters are rebuilt cold
at the new length and `last_window_size` is updated. -/
def MedianFilter.resetIfChanged (m : MedianFilter) : MedianFilter :=
  let params := Parameters.fromRaw m.params
  if params.window_size ≠ m.last_window_size then
    { m with
      left_filter := Filter.new params.window_size
      right_filter := Filter.new params.window_size
      last_window_size := params.window_size }
  else m

/-- `MedianFilter::process` (lib.rs lines 65-97): reset filters if the window
size changed, snapshot the derived parameters, then run each channel's
per-sample loop. The buffers are lists of (finite) samples; the wet/dry mix
is the finite payload of the snapshot's cell (the theorems hypothesise the
cell is finite where it matters). Returns the new state and both outputs. -/
def MedianFilter.process (m : MedianFilter) (left right : List ℚ) :
    MedianFilter × List ℚ × List ℚ :=
  let m0 := m.resetIfChanged
  let params := Parameters.fromRaw m0.params
  let wd := params.wet_dry.toRat
  let l := processChannel wd m0.left_filter left
  let r := processChannel wd m0.right_filter right
  ({ m0 with left_filter := l.1, right_filter := r.1 }, l.2, r.2)

/-- Rust's `format!` with two decimal places, applied to an exact rational:
the value rounded to hundredths, printed with sign, integer part, and two
fractional digits. -/
def fmt2 (q : ℚ) : String :=
  let n : ℤ := round (q * 100)
  let a := n.natAbs
  (if n < 0 then "-" else "") ++ toString (a / 100) ++ "." ++
    (if a % 100 < 10 then "0" else "") ++ toString (a % 100)

/-- `RawParameters::get_strings` (lib.rs lines 146-159): rebuilds the derived
snapshot, then formats `(value_text, unit_text)` for the parameter —
`wet_dry * 100` with two decimals and "% Wet", or the integer window size
and " Samples". -/
def RawParameters.getStrings (p : RawParameters) (t : ParameterType) :
    String × String :=
  let params := Parameters.fromRaw p
  match t with
  | .WetDry => (fmt2 (params.wet_dry.toRat * 100), "% Wet")
  | .WindowSize => (toString params.window_size, " Samples")

/-- `PluginParameters::get_parameter_label` (macros.rs lines 16-23): the unit
string on a valid index, the empty string otherwise. -/
def getParameterLabel (p : RawParameters) (index : ℤ) : String :=
  match ParameterType.tryFrom index with
  | .ok t => (p.getStrings t).2
  | .error _ => ""

/-- `PluginParameters::get_parameter_text` (macros.rs lines 25-32): the
formatted value string on a valid index, the empty string otherwise. -/
def getParameterText (p : RawParameters) (index : ℤ) : String :=
  match ParameterType.tryFrom index with
  | .ok t => (p.getStrings t).1
  | .error _ => ""

/-- `PluginParameters::get_parameter_name` (macros.rs lines 34-41): the
display name on a valid index, the empty string otherwise. -/
def getParameterName (_p : RawParameters) (index : ℤ) : String :=
  match ParameterType.tryFrom index with
  | .ok t => t.display
  | .error _ => ""

/-- `PluginParameters::get_parameter` (macros.rs lines 43-50): the stored
normalized value on a valid index, 0.0 otherwise. -/
def getParameter (p : RawParameters) (index : ℤ) : FVal :=
  match ParameterType.tryFrom index with
  | .ok t => p.get t
  | .error _ => .fin 0

/-- `PluginParameters::set_parameter` (macros.rs lines 52-67): on an invalid
index, do nothing; on a valid index whose stored value already `==` the
incoming value, return early (echo suppression); otherwise delegate to
`RawParameters::set`. Returns the new storage and the trace of observable
actions. -/
def setParameter (p : RawParameters) (index : ℤ) (value : FVal) :
    RawParameters × List TraceEvent :=
  match ParameterType.tryFrom index with
  | .error _ => (p, [])
  | .ok t =>
    if (p.get t).feq value then (p, [])
    else p.set value t

/-- `PluginParameters::can_be_automated` (macros.rs lines 69-72): true iff
the index converts to a valid parameter. -/
def canBeAutomated (index : ℤ) : Bool :=
  match ParameterType.tryFrom index with
  | .ok _ => true
  | .error _ => false

/-- `PluginParameters::string_to_parameter` (macros.rs lines 74-76): text
parsing is always rejected. -/
def stringToParameter (_index : ℤ) (_text : String) : Bool :=
  false

/-- One host-facing call into the protocol adapter. -/
inductive AdapterCall where
  | getLabel : ℤ → AdapterCall
  | getText : ℤ → AdapterCall
  | getName : ℤ → AdapterCall
  | getParam : ℤ → AdapterCall
  | setParam : ℤ → FVal → AdapterCall
  | canAutomate : ℤ → AdapterCall
  | parseText : ℤ → String → AdapterCall
deriving DecidableEq

/-- The value an adapter call returns to the host. -/
inductive AdapterResult where
  | str : String → AdapterResult
  | val : FVal → AdapterResult
  | bool : Bool → AdapterResult
  | unit : AdapterResult
deriving DecidableEq

/-- The adapter as a single step function over Parameter Storage: each call
yields its result, the storage afterwards, and the trace of observable
actions it performed. -/
def adapterStep (p : RawParameters) :
    AdapterCall → AdapterResult × RawParameters × List TraceEvent
  | .getLabel i => (.str (getParameterLabel p i), p, [])
  | .getText i => (.str (getParameterText p i), p, [])
  | .getName i => (.str (getParameterName p i), p, [])
  | .getParam i => (.val (getParameter p i), p, [])
  | .setParam i v =>
    let r := setParameter p i v
    (.unit, r.1, r.2)
  | .canAutomate i => (.bool (canBeAutomated i), p, [])
  | .parseText i s => (.bool (stringToParameter i s), p, [])

/-- The filter state after feeding a whole sample sequence, oldest first. -/
def filterAfter (f : Filter) (xs : List ℚ) : Filter :=
  xs.foldl Filter.consume f

/-- The per-sample output the spec prescribes for one channel, written
non-incrementally: sample `i` of the output is
`input[i] * (1 - wet_dry) + filtered[i] * wet_dry`, where `filtered[i]` is
the running median of the filter after consuming the first `i + 1` samples
(or silence while the filter is not ready). -/
def expectedOutput (wd : ℚ) (f : Filter) (xs : List ℚ) : List ℚ :=
  (List.range xs.length).map fun i =>
    xs.getD i 0 * (1 - wd) + (filterAfter f (xs.take (i + 1))).filteredValue * wd

/-- The window-size derivation as the spec's words state it:
`round(normalized * 100)`, floored to a minimum of 1. Stated only for
comparison with the source's truncating derivation in `Parameters.fromRaw`. -/
def windowSizeSpecRound (q : ℚ) : ℕ :=
  max 1 (round (q * 100)).toNat

section Lemmas

theorem resetIfChanged_params (m : MedianFilter) :
    m.resetIfChanged.params = m.params := by
  unfold MedianFilter.resetIfChanged
  by_cases h : (Parameters.fromRaw m.params).window_size ≠ m.last_window_size <;>
    simp [h]

theorem filterAfter_nil (f : Filter) : filterAfter f [] = f := rfl

theorem filterAfter_cons (f : Filter) (x : ℚ) (xs : List ℚ) :
    filterAfter f (x :: xs) = filterAfter (f.consume x) xs := rfl

theorem consume_window (f : Filter) (x : ℚ) : (f.consume x).window = f.window := rfl

theorem processChannel_window (wd : ℚ) (f : Filter) (xs : List ℚ) :
    (processChannel wd f xs).1.window = f.window := by
  induction xs generalizing f with
  | nil => rfl
  | cons x xs ih => simpa [processChannel] using ih (f.consume x)

theorem expectedOutput_cons (wd : ℚ) (f : Filter) (x : ℚ) (xs : List ℚ) :
    expectedOutput wd f (x :: xs) =
      (x * (1 - wd) + (f.consume x).filteredValue * wd) ::
        expectedOutput wd (f.consume x) xs := by
  unfold expectedOutput
  simp [List.range_succ_eq_map, List.map_map, Function.comp_def, filterAfter_cons,
    filterAfter_nil]

theorem processChannel_snd (wd : ℚ) (f : Filter) (xs : List ℚ) :
    (processChannel wd f xs).2 = expectedOutput wd f xs := by
  induction xs generalizing f with
  | nil => rfl
  | cons x xs ih => simp [processChannel, expectedOutput_cons, ih]

theorem map_getD_range (xs : List ℚ) :
    (List.range xs.length).map (fun i => xs.getD i 0) = xs := by
  induction xs with
  | nil => rfl
  | cons x xs ih =>
    simp only [List.length_cons, List.range_succ_eq_map, List.map_cons,
      List.map_map, Function.comp_def, List.getD_cons_zero, List.getD_cons_succ, ih]

theorem expectedOutput_dry (f : Filter) (xs : List ℚ) :
    expectedOutput 0 f xs = xs := by
  unfold expectedOutput
  simpa using map_getD_range xs

theorem expectedOutput_wet (f : Filter) (xs : List ℚ) :
    expectedOutput 1 f xs =
      (List.range xs.length).map
        (fun i => (filterAfter f (xs.take (i + 1))).filteredValue) := by
  unfold expectedOutput
  simp

end Lemmas

section RoundingLemmas

theorem roundTiesEven_intCast (m : ℤ) : roundTiesEven (m : ℚ) = m := by
  unfold roundTiesEven
  rw [Int.fract_intCast]
  norm_num

theorem f32round_of_exact (q : ℚ) (e m : ℤ) (hq : 0 < q)
    (hlog : max (Int.log 2 q) (-126) = e)
    (hm : q * 2 ^ (23 - e) = (m : ℚ)) :
    f32round q = q := by
  unfold f32round f32roundPos expF32
  rw [if_neg hq.ne', if_pos hq, hlog, hm, roundTiesEven_intCast]
  have he : (23 - e) + (e - 23) = 0 := by ring
  calc (m : ℚ) * 2 ^ (e - 23)
      = q * 2 ^ (23 - e) * 2 ^ (e - 23) := by rw [hm]
    _ = q * 2 ^ ((23 - e) + (e - 23)) := by
        rw [mul_assoc, ← zpow_add₀ (by norm_num : (2:ℚ) ≠ 0)]
    _ = q := by rw [he, zpow_zero, mul_one]

theorem f32round_round_up (q : ℚ) (e f : ℤ) (hq : 0 < q)
    (hlog : max (Int.log 2 q) (-126) = e)
    (hf : ⌊q * 2 ^ (23 - e)⌋ = f)
    (hfr : 1/2 < Int.fract (q * 2 ^ (23 - e))) :
    f32round q = (f + 1 : ℤ) * 2 ^ (e - 23) := by
  unfold f32round f32roundPos expF32
  rw [if_neg hq.ne', if_pos hq, hlog]
  unfold roundTiesEven
  rw [if_neg (by linarith), if_pos hfr, hf]

theorem log2_fifty : max (Int.log 2 (50:ℚ)) (-126) = 5 := by
  rw [Int.log_of_one_le_right 2 (by norm_num : (1:ℚ) ≤ 50)]
  have h : ⌊(50:ℚ)⌋₊ = 50 := by norm_num
  have h5 : Nat.log 2 50 = 5 :=
    Nat.log_eq_of_pow_le_of_lt_pow (by norm_num) (by norm_num)
  rw [h, h5]
  norm_num

theorem log2_hundred : max (Int.log 2 (100:ℚ)) (-126) = 6 := by
  rw [Int.log_of_one_le_right 2 (by norm_num : (1:ℚ) ≤ 100)]
  have h : ⌊(100:ℚ)⌋₊ = 100 := by norm_num
  have h6 : Nat.log 2 100 = 6 :=
    Nat.log_eq_of_pow_le_of_lt_pow (by norm_num) (by norm_num)
  rw [h, h6]
  norm_num

theorem log2_ce : max (Int.log 2 ((25:ℚ)/16)) (-126) = 0 := by
  rw [Int.log_of_one_le_right 2 (by norm_num : (1:ℚ) ≤ 25/16)]
  have h : ⌊(25:ℚ)/16⌋₊ = 1 := by
    rw [Nat.floor_eq_iff (by norm_num)]
    norm_num
  have h0 : Nat.log 2 1 = 0 :=
    Nat.log_eq_of_pow_le_of_lt_pow (by norm_num) (by norm_num)
  rw [h, h0]
  norm_num

theorem log2_029 : max (Int.log 2 ((243269625:ℚ)/8388608)) (-126) = 4 := by
  rw [Int.log_of_one_le_right 2 (by norm_num : (1:ℚ) ≤ 243269625/8388608)]
  have h : ⌊(243269625:ℚ)/8388608⌋₊ = 28 := by
    rw [Nat.floor_eq_iff (by norm_num)]
    norm_num
  have h4 : Nat.log 2 28 = 4 :=
    Nat.log_eq_of_pow_le_of_lt_pow (by norm_num) (by norm_num)
  rw [h, h4]
  norm_num

theorem f32round_zero : f32round 0 = 0 := by
  unfold f32round
  rw [if_pos rfl]

theorem f32round_fifty : f32round 50 = 50 :=
  f32round_of_exact 50 5 13107200 (by norm_num) log2_fifty (by norm_num)

theorem f32round_hundred : f32round 100 = 100 :=
  f32round_of_exact 100 6 13107200 (by norm_num) log2_hundred (by norm_num)

theorem f32round_ce : f32round (25/16) = 25/16 :=
  f32round_of_exact (25/16) 0 13107200 (by norm_num) log2_ce (by norm_num)

/-- The true product at the f32 value nearest 0.29 is 28.99999916…, whose
nearest f32 is exactly 29: rounding carries the truncation across the
integer boundary. -/
theorem f32round_029 : f32round (243269625/8388608) = 29 := by
  have hx : ((243269625:ℚ)/8388608) * 2 ^ ((23:ℤ) - 4) = 243269625/16 := by
    norm_num
  have hfl : ⌊((243269625:ℚ)/8388608) * 2 ^ ((23:ℤ) - 4)⌋ = 15204351 := by
    rw [hx]
    norm_num
  have hfr :
      1/2 < Int.fract (((243269625:ℚ)/8388608) * 2 ^ ((23:ℤ) - 4)) := by
    unfold Int.fract
    rw [hx]
    norm_num
  rw [f32round_round_up (243269625/8388608) 4 15204351 (by norm_num) log2_029
    hfl hfr]
  norm_num

theorem mul100_fin_eval (q r : ℚ) (h : f32round (q * 100) = r)
    (hlo : -(2 ^ 128) < r) (hhi : r < 2 ^ 128) :
    FVal.mul100 (FVal.fin q) = FVal.fin r := by
  simp only [FVal.mul100, h]
  rw [if_neg (not_le.mpr hlo), if_neg (not_le.mpr hhi)]

theorem fromRaw_default_window :
    (Parameters.fromRaw RawParameters.default).window_size = 50 := by
  show max (FVal.castUsize (FVal.mul100 (FVal.fin (1/2)))) 1 = 50
  rw [mul100_fin_eval (1/2) 50
    (by rw [show (1/2:ℚ) * 100 = 50 from by norm_num]; exact f32round_fifty)
    (by norm_num) (by norm_num)]
  norm_num [FVal.castUsize, usizeMax]
  decide

end RoundingLemmas

theorem fromRaw_window_pos (p : RawParameters) :
    1 ≤ (Parameters.fromRaw p).window_size :=
  le_max_right _ 1

/-- C1 counterexample: the spec derives `window_size = round(v * 100)` floored
at 1, but the source truncates toward zero. At the stored value 1/64 (exactly
representable in f32, with exact f32 product 1.5625) the code yields 1 while
the spec's rounding yields 2. -/
theorem C1_round_counterexample :
    (Parameters.fromRaw
        { window_size := FVal.fin (1/64), wet_dry := FVal.fin 0 }).window_size = 1 ∧
    windowSizeSpecRound (1/64) = 2 := by
  constructor
  · show max (FVal.castUsize (FVal.mul100 (FVal.fin (1/64)))) 1 = 1
    rw [mul100_fin_eval (1/64) (25/16)
      (by rw [show (1/64:ℚ) * 100 = 25/16 from by norm_num]; exact f32round_ce)
      (by norm_num) (by norm_num)]
    norm_num [FVal.castUsize, usizeMax]
  · norm_num [windowSizeSpecRound, round_eq]
    decide

/-- C1 (amended): the snapshot computes window_size by Rust's truncating
`as usize` cast of the f32 product v * 100.0 — the exact product correctly
rounded to the nearest f32 — floored to a minimum of 1; truncation of the
rounded product, not round(v * 100). Whenever the product is exactly
representable (f32round fixes it), window_size = max 1 ⌊v * 100⌋; in
particular v = 0.0 yields 1, v = 0.5 yields 50 and v = 1.0 yields 100, while
at the f32 value nearest 0.29 (9730785/2^25) the product rounds up to
exactly 29.0 and window_size is 29, not ⌊28.99999916…⌋ = 28. -/
theorem C1_window_size_truncates :
    (∀ (q : ℚ) (w : FVal), 0 ≤ q → q ≤ 1 → f32round (q * 100) = q * 100 →
      (Parameters.fromRaw { window_size := FVal.fin q, wet_dry := w }).window_size
        = max 1 (Int.toNat ⌊q * 100⌋)) ∧
    (∀ w : FVal,
      (Parameters.fromRaw { window_size := FVal.fin 0, wet_dry := w }).window_size = 1) ∧
    (∀ w : FVal,
      (Parameters.fromRaw { window_size := FVal.fin (1/2), wet_dry := w }).window_size = 50) ∧
    (∀ w : FVal,
      (Parameters.fromRaw { window_size := FVal.fin 1, wet_dry := w }).window_size = 100) ∧
    (∀ w : FVal,
      (Parameters.fromRaw
        { window_size := FVal.fin (9730785/33554432), wet_dry := w }).window_size = 29) := by
  refine ⟨?_, ?_, ?_, ?_, ?_⟩
  case refine_2 =>
    intro w
    show max (FVal.castUsize (FVal.mul100 (FVal.fin 0))) 1 = 1
    rw [mul100_fin_eval 0 0
      (by rw [show (0:ℚ) * 100 = 0 from by norm_num]; exact f32round_zero)
      (by norm_num) (by norm_num)]
    norm_num [FVal.castUsize]
  case refine_3 =>
    intro w
    show max (FVal.castUsize (FVal.mul100 (FVal.fin (1/2)))) 1 = 50
    rw [mul100_fin_eval (1/2) 50
      (by rw [show (1/2:ℚ) * 100 = 50 from by norm_num]; exact f32round_fifty)
      (by norm_num) (by norm_num)]
    norm_num [FVal.castUsize, usizeMax]
    decide
  case refine_4 =>
    intro w
    show max (FVal.castUsize (FVal.mul100 (FVal.fin 1))) 1 = 100
    rw [mul100_fin_eval 1 100
      (by rw [show (1:ℚ) * 100 = 100 from by norm_num]; exact f32round_hundred)
      (by norm_num) (by norm_num)]
    norm_num [FVal.castUsize, usizeMax]
    decide
  case refine_5 =>
    intro w
    show max (FVal.castUsize (FVal.mul100 (FVal.fin (9730785/33554432)))) 1 = 29
    rw [mul100_fin_eval (9730785/33554432) 29
      (by
        rw [show (9730785:ℚ)/33554432 * 100 = 243269625/8388608 from by norm_num]
        exact f32round_029)
      (by norm_num) (by norm_num)]
    norm_num [FVal.castUsize, usizeMax]
    decide
  intro q w h0 h1 hex
  have hnn : (0:ℚ) ≤ q * 100 := mul_nonneg h0 (by norm_num)
  have hub : q * 100 ≤ 100 := by nlinarith
  show max (FVal.castUsize (FVal.mul100 (FVal.fin q))) 1 = max 1 (Int.toNat ⌊q * 100⌋)
  rw [mul100_fin_eval q (q * 100) hex
    (lt_of_lt_of_le (by norm_num) hnn) (lt_of_le_of_lt hub (by norm_num))]
  simp only [FVal.castUsize]
  by_cases h : q * 100 ≤ 0
  · have hq : q * 100 = 0 := le_antisymm h hnn
    simp [h, hq]
  · have h100 : ⌊q * 100⌋ ≤ 100 := by
      calc ⌊q * 100⌋ ≤ ⌊(100 : ℚ)⌋ := Int.floor_le_floor hub
        _ = 100 := by norm_num
    have hle : Int.toNat ⌊q * 100⌋ ≤ usizeMax := by
      have h2 : Int.toNat ⌊q * 100⌋ ≤ 100 := by omega
      exact le_trans h2 (by norm_num [usizeMax])
    rw [if_neg h, min_eq_right hle, max_comm]

/-- C1 witness: the amended derivation applied at the stored value 0.5,
whose product 50.0 is exact. -/
theorem C1_window_size_truncates_witness :
    (Parameters.fromRaw
        { window_size := FVal.fin (1/2), wet_dry := FVal.fin (1/2) }).window_size
      = max 1 (Int.toNat ⌊(1/2 : ℚ) * 100⌋) :=
  C1_window_size_truncates.1 (1/2) (FVal.fin (1/2)) (by norm_num) (by norm_num)
    (by rw [show (1/2:ℚ) * 100 = 50 from by norm_num]; exact f32round_fifty)

/-- C9 counterexample: the claim's parenthetical says the cast to usize
saturates at 0 for non-finite inputs, but Rust's saturating cast sends +∞ to
usize::MAX: storing +∞ in the window-size cell derives
window_size = 2^64 - 1, not 1. -/
theorem C9_inf_counterexample :
    (Parameters.fromRaw
        { window_size := FVal.inf, wet_dry := FVal.fin 0 }).window_size = usizeMax ∧
    FVal.castUsize (FVal.mul100 FVal.inf) ≠ 0 ∧ usizeMax ≠ 1 := by
  refine ⟨by decide, by decide, by decide⟩

/-- C9 (amended): for every value stored in the window-size cell — finite
values of any sign, ±∞ and NaN — the derived window_size is at least 1 (NaN,
−∞ and non-positive finite values cast to 0, +∞ and oversized finite values
saturate to usize::MAX, and the max-with-1 floor then applies), so every
filter rebuild passes a window length ≥ 1 to Filter::new. -/
theorem C9_window_size_ge_one :
    (∀ v w : FVal,
      1 ≤ (Parameters.fromRaw { window_size := v, wet_dry := w }).window_size) ∧
    (∀ m : MedianFilter,
      m.resetIfChanged = m ∨
        (1 ≤ m.resetIfChanged.left_filter.window ∧
         1 ≤ m.resetIfChanged.right_filter.window)) := by
  constructor
  · intro v w
    exact fromRaw_window_pos _
  · intro m
    by_cases h : (Parameters.fromRaw m.params).window_size = m.last_window_size
    · exact Or.inl (by simp [MedianFilter.resetIfChanged, h])
    · refine Or.inr ?_
      have hpos := fromRaw_window_pos m.params
      constructor <;> simp [MedianFilter.resetIfChanged, h, Filter.new, hpos]

/-- C10: after Plugin::new and init with the descriptor defaults (both
parameters 0.5), last_window_size is 50 and both filters have window length
50; init re-reads the derived window size without touching the filters, and
the invariant holds because the derived window size of the default value 0.5
equals the hardcoded initial filter length 50. -/
theorem C10_init_default_invariant :
    MedianFilter.new.init.last_window_size = 50 ∧
    MedianFilter.new.init.left_filter.window = 50 ∧
    MedianFilter.new.init.right_filter.window = 50 ∧
    (∀ m : MedianFilter,
      m.init.left_filter = m.left_filter ∧
      m.init.right_filter = m.right_filter ∧
      m.init.last_window_size = (Parameters.fromRaw m.params).window_size) ∧
    (Parameters.fromRaw RawParameters.default).window_size = 50 ∧
    MedianFilter.new.left_filter = Filter.new 50 ∧
    MedianFilter.new.right_filter = Filter.new 50 ∧
    MedianFilter.new.last_window_size = 50 := by
  refine ⟨?_, rfl, rfl, fun m => ⟨rfl, rfl, rfl⟩, ?_, rfl, rfl, rfl⟩ <;>
    exact fromRaw_default_window

/-- C4: calling set_parameter on a valid index with a value numerically
identical (f32 ==) to the stored one is a complete no-op: Parameter Storage
is unchanged and no begin-edit or end-edit notification is issued. -/
theorem C4_echo_noop (p : RawParameters) (i : ℤ) (v : FVal)
    (t : ParameterType) (ht : ParameterType.tryFrom i = .ok t)
    (hv : (p.get t).feq v = true) :
    setParameter p i v = (p, []) := by
  simp [setParameter, ht, hv]

/-- C4 witness: re-sending the default wet/dry value 0.5 at index 0. -/
theorem C4_echo_noop_witness :
    setParameter RawParameters.default 0 (FVal.fin (1/2)) =
      (RawParameters.default, []) :=
  C4_echo_noop RawParameters.default 0 (FVal.fin (1/2)) .WetDry rfl
    (by simp [RawParameters.get, RawParameters.getRef, RawParameters.default,
      FVal.feq])

/-- C5: for every index other than 0 and 1 every adapter operation degrades
to its neutral value: empty strings, 0.0 from get, false from
can_be_automated, and set leaves storage unchanged with no notifications. -/
theorem C5_invalid_index_neutral (p : RawParameters) (i : ℤ) (v : FVal)
    (h0 : i ≠ 0) (h1 : i ≠ 1) :
    getParameterName p i = "" ∧ getParameterLabel p i = "" ∧
    getParameterText p i = "" ∧ getParameter p i = FVal.fin 0 ∧
    canBeAutomated i = false ∧ setParameter p i v = (p, []) := by
  have ht : ParameterType.tryFrom i = .error () := by
    simp [ParameterType.tryFrom, h0, h1]
  simp [getParameterName, getParameterLabel, getParameterText, getParameter,
    canBeAutomated, setParameter, ht]

/-- C5 witness: index 2 (just past the descriptor table) on the default
storage. -/
theorem C5_invalid_index_neutral_witness :
    getParameterName RawParameters.default 2 = "" ∧
    getParameterLabel RawParameters.default 2 = "" ∧
    getParameterText RawParameters.default 2 = "" ∧
    getParameter RawParameters.default 2 = FVal.fin 0 ∧
    canBeAutomated 2 = false ∧
    setParameter RawParameters.default 2 (FVal.fin 1) =
      (RawParameters.default, []) :=
  C5_invalid_index_neutral RawParameters.default 2 (FVal.fin 1)
    (by decide) (by decide)

/-- C6: the identifier/index conversions form a bijection on the table's
indices: index → identifier → index and identifier → index → identifier are
identities on valid data, and any index other than 0 and 1 converts to an
error. -/
theorem C6_index_bijection :
    (∀ t : ParameterType, ParameterType.tryFrom t.toI32 = .ok t) ∧
    (∀ (i : ℤ) (t : ParameterType),
      ParameterType.tryFrom i = .ok t → t.toI32 = i) ∧
    (∀ i : ℤ, i ≠ 0 → i ≠ 1 → ParameterType.tryFrom i = .error ()) := by
  refine ⟨?_, ?_, ?_⟩
  · intro t
    cases t <;> rfl
  · intro i t h
    by_cases h0 : i = 0
    · subst h0
      simp [ParameterType.tryFrom] at h
      subst h
      rfl
    · by_cases h1 : i = 1
      · subst h1
        simp [ParameterType.tryFrom] at h
        subst h
        rfl
      · simp [ParameterType.tryFrom, h0, h1] at h
  · intro i h0 h1
    simp [ParameterType.tryFrom, h0, h1]

/-- C6 witness: round trips at concrete table entries and failure at 7. -/
theorem C6_index_bijection_witness :
    ParameterType.tryFrom (ParameterType.toI32 .WindowSize) = .ok .WindowSize ∧
    ParameterType.toI32 .WetDry = 0 ∧
    ParameterType.tryFrom 7 = .error () :=
  ⟨C6_index_bijection.1 .WindowSize,
   C6_index_bijection.2.1 0 .WetDry rfl,
   C6_index_bijection.2.2 7 (by decide) (by decide)⟩

/-- C8: for every parameter and every v in [0,1] differing from the stored
value, get immediately after set returns exactly v. -/
theorem C8_get_after_set (p : RawParameters) (t : ParameterType) (q : ℚ)
    (h0 : 0 ≤ q) (h1 : q ≤ 1) (hne : (p.get t).feq (FVal.fin q) = false) :
    ((p.set (FVal.fin q) t).1).get t = FVal.fin q := by
  cases t <;> rfl

/-- C8 witness: storing 0.75 into the wet/dry cell (previously 0.5) and
reading it back. -/
theorem C8_get_after_set_witness :
    ((RawParameters.default.set (FVal.fin (3/4)) .WetDry).1).get .WetDry
      = FVal.fin (3/4) :=
  C8_get_after_set RawParameters.default .WetDry (3/4) (by norm_num)
    (by norm_num)
    (by norm_num [RawParameters.get, RawParameters.getRef, RawParameters.default,
      FVal.feq])

theorem resetIfChanged_of_eq (m : MedianFilter)
    (h : (Parameters.fromRaw m.params).window_size = m.last_window_size) :
    m.resetIfChanged = m := by
  simp [MedianFilter.resetIfChanged, h]

theorem resetIfChanged_of_ne (m : MedianFilter)
    (h : (Parameters.fromRaw m.params).window_size ≠ m.last_window_size) :
    m.resetIfChanged =
      { m with
        left_filter := Filter.new (Parameters.fromRaw m.params).window_size
        right_filter := Filter.new (Parameters.fromRaw m.params).window_size
        last_window_size := (Parameters.fromRaw m.params).window_size } := by
  simp [MedianFilter.resetIfChanged, h]

theorem process_state (m : MedianFilter) (L R : List ℚ) :
    (m.process L R).1.left_filter.window = m.resetIfChanged.left_filter.window ∧
    (m.process L R).1.right_filter.window = m.resetIfChanged.right_filter.window ∧
    (m.process L R).1.last_window_size = m.resetIfChanged.last_window_size := by
  unfold MedianFilter.process
  exact ⟨processChannel_window _ _ _, processChannel_window _ _ _, rfl⟩

theorem process_outputs (m : MedianFilter) (L R : List ℚ) :
    (m.process L R).2.1 =
      expectedOutput (Parameters.fromRaw m.params).wet_dry.toRat
        m.resetIfChanged.left_filter L ∧
    (m.process L R).2.2 =
      expectedOutput (Parameters.fromRaw m.params).wet_dry.toRat
        m.resetIfChanged.right_filter R := by
  unfold MedianFilter.process
  constructor <;> simp [processChannel_snd, resetIfChanged_params]

/-- C3: at the start of every process call, when the snapshot's window_size
differs from last_window_size both channel filters are rebuilt cold at the
new length (losing all buffered samples) and last_window_size is updated;
given that the filters' windows matched last_window_size beforehand, the
filters entering the per-sample loop match the most recently observed
window_size, a change makes them start cold, and process re-establishes the
invariant it relies on. -/
theorem C3_reset_invariant (m : MedianFilter)
    (hl : m.left_filter.window = m.last_window_size)
    (hr : m.right_filter.window = m.last_window_size) :
    (m.resetIfChanged.left_filter.window =
        (Parameters.fromRaw m.params).window_size ∧
     m.resetIfChanged.right_filter.window =
        (Parameters.fromRaw m.params).window_size ∧
     m.resetIfChanged.last_window_size =
        (Parameters.fromRaw m.params).window_size) ∧
    ((Parameters.fromRaw m.params).window_size ≠ m.last_window_size →
      m.resetIfChanged.left_filter =
        Filter.new (Parameters.fromRaw m.params).window_size ∧
      m.resetIfChanged.right_filter =
        Filter.new (Parameters.fromRaw m.params).window_size ∧
      m.resetIfChanged.left_filter.isReady = false ∧
      m.resetIfChanged.right_filter.isReady = false) ∧
    (∀ L R : List ℚ,
      (m.process L R).1.left_filter.window =
        (Parameters.fromRaw m.params).window_size ∧
      (m.process L R).1.right_filter.window =
        (Parameters.fromRaw m.params).window_size ∧
      (m.process L R).1.last_window_size =
        (Parameters.fromRaw m.params).window_size) := by
  have base :
      m.resetIfChanged.left_filter.window =
        (Parameters.fromRaw m.params).window_size ∧
      m.resetIfChanged.right_filter.window =
        (Parameters.fromRaw m.params).window_size ∧
      m.resetIfChanged.last_window_size =
        (Parameters.fromRaw m.params).window_size := by
    by_cases h : (Parameters.fromRaw m.params).window_size = m.last_window_size
    · rw [resetIfChanged_of_eq m h]
      exact ⟨hl.trans h.symm, hr.trans h.symm, h.symm⟩
    · rw [resetIfChanged_of_ne m h]
      exact ⟨rfl, rfl, rfl⟩
  refine ⟨base, ?_, ?_⟩
  · intro h
    rw [resetIfChanged_of_ne m h]
    exact ⟨rfl, rfl, rfl, rfl⟩
  · intro L R
    obtain ⟨p1, p2, p3⟩ := process_state m L R
    exact ⟨p1.trans base.1, p2.trans base.2.1, p3.trans base.2.2⟩

/-- C3 witness: the freshly constructed plugin (windows 50, last 50). -/
theorem C3_reset_invariant_witness :
    MedianFilter.new.resetIfChanged.left_filter.window =
      (Parameters.fromRaw MedianFilter.new.params).window_size :=
  (C3_reset_invariant MedianFilter.new rfl rfl).1.1

/-- C2: for each channel and sample index i in buffer order, process feeds
input[i] into that channel's filter and writes
output[i] = input[i] * (1 - wet_dry) + filtered[i] * wet_dry, where
filtered[i] is the running median after the first i+1 samples (silence while
the filter is not ready); with wet_dry = 0 the output equals the input
sample-for-sample, and with wet_dry = 1 it equals the filter's reported
value. -/
theorem C2_process_blend (m : MedianFilter) (L R : List ℚ) (wd : ℚ)
    (hwd : (Parameters.fromRaw m.params).wet_dry = FVal.fin wd) :
    ((m.process L R).2.1 = expectedOutput wd m.resetIfChanged.left_filter L ∧
     (m.process L R).2.2 = expectedOutput wd m.resetIfChanged.right_filter R) ∧
    (wd = 0 → (m.process L R).2.1 = L ∧ (m.process L R).2.2 = R) ∧
    (wd = 1 →
      (m.process L R).2.1 = (List.range L.length).map
        (fun i =>
          (filterAfter m.resetIfChanged.left_filter (L.take (i + 1))).filteredValue) ∧
      (m.process L R).2.2 = (List.range R.length).map
        (fun i =>
          (filterAfter m.resetIfChanged.right_filter (R.take (i + 1))).filteredValue)) := by
  obtain ⟨h1, h2⟩ := process_outputs m L R
  rw [hwd] at h1 h2
  simp only [FVal.toRat] at h1 h2
  refine ⟨⟨h1, h2⟩, ?_, ?_⟩
  · rintro rfl
    rw [h1, h2, expectedOutput_dry, expectedOutput_dry]
    exact ⟨rfl, rfl⟩
  · rintro rfl
    rw [h1, h2, expectedOutput_wet, expectedOutput_wet]
    exact ⟨rfl, rfl⟩

/-- C2 witness: the default plugin (wet_dry 0.5) on a two-sample left
buffer. -/
theorem C2_process_blend_witness :
    (MedianFilter.new.process [1, 2] []).2.1 =
      expectedOutput (1/2) MedianFilter.new.resetIfChanged.left_filter [1, 2] :=
  (C2_process_blend MedianFilter.new [1, 2] [] (1/2) rfl).1.1

/-- C7: set is the only adapter operation that mutates Parameter Storage,
and every externally effective mutation produces exactly the ordered trace
begin_edit, store of the new value, end_edit for that parameter; every other
adapter call leaves storage unchanged and emits no events. -/
theorem C7_set_only_mutator (p : RawParameters) (c : AdapterCall) :
    ((∀ i v, c ≠ AdapterCall.setParam i v) →
      (adapterStep p c).2.1 = p ∧ (adapterStep p c).2.2 = []) ∧
    (∀ (i : ℤ) (v : FVal) (t : ParameterType),
      c = AdapterCall.setParam i v →
      ParameterType.tryFrom i = Except.ok t →
      (p.get t).feq v = false →
      adapterStep p c =
        (AdapterResult.unit, p.setRef t v,
         [TraceEvent.beginEdit t.toI32, TraceEvent.storeValue t v,
          TraceEvent.endEdit t.toI32])) := by
  constructor
  · intro h
    cases c <;> first
      | exact absurd rfl (h _ _)
      | exact ⟨rfl, rfl⟩
  · rintro i v t rfl ht hv
    simp [adapterStep, setParameter, ht, hv, RawParameters.set]

/-- C7 witness: a read call (get_parameter_name at index 0) emits nothing,
and an effective set at index 0 emits exactly begin_edit, store, end_edit. -/
theorem C7_set_only_mutator_witness :
    ((adapterStep RawParameters.default (AdapterCall.getName 0)).2.1 =
        RawParameters.default ∧
     (adapterStep RawParameters.default (AdapterCall.getName 0)).2.2 = []) ∧
    adapterStep RawParameters.default (AdapterCall.setParam 0 (FVal.fin (3/4))) =
      (AdapterResult.unit,
       RawParameters.default.setRef .WetDry (FVal.fin (3/4)),
       [TraceEvent.beginEdit (ParameterType.toI32 .WetDry),
        TraceEvent.storeValue .WetDry (FVal.fin (3/4)),
        TraceEvent.endEdit (ParameterType.toI32 .WetDry)]) :=
  ⟨(C7_set_only_mutator RawParameters.default (AdapterCall.getName 0)).1
      (fun _ _ h => nomatch h),
   (C7_set_only_mutator RawParameters.default
        (AdapterCall.setParam 0 (FVal.fin (3/4)))).2 0 (FVal.fin (3/4)) .WetDry
      rfl rfl
      (by norm_num [RawParameters.get, RawParameters.getRef,
        RawParameters.default, FVal.feq])⟩

end MiniVst
